import Mathlib

/-!
# Mailing-list service: shallow embedding and verification

This file embeds the core of a Go mailing-list service consisting of a
record store over a single SQLite table `emails` (package `mdb`), a
JSON-over-HTTP surface (package `jsonapi`) and a gRPC surface (package
`grpcapi`), and proves or refutes the frozen specification claims about
it.

The `emails` table is modelled as a `List Row` kept in insertion order
(SQLite assigns each new row the rowid `max existing rowid + 1`, so
insertion order coincides with ascending-id order on reachable states;
the well-formedness predicates below make that assumption explicit where
a theorem needs it).
-/

namespace MailingList

/-! ## Go `time.Time` and the 64-bit timestamp codec

`time.Unix(sec, 0)` stores `sec + unixToInternal` in the `ext` field of a
`time.Time` (Go `int64` addition wraps), and `Time.Unix()` returns
`ext - unixToInternal` (again with wrapping `int64` arithmetic).  We model
a wrapped 64-bit signed integer as an `Int` normalised into
`[-2^63, 2^63)` by `wrap64`. -/

/-- Normalise an integer into the signed 64-bit range, the way Go `int64`
arithmetic wraps. -/
def wrap64 (n : Int) : Int := (n + 2 ^ 63) % 2 ^ 64 - 2 ^ 63

/-- Go's `unixToInternal` constant: seconds between year 1 and 1970,
`(1969*365 + 1969/4 - 1969/100 + 1969/400) * 86400`. -/
def unixToInternal : Int := 62135596800

/-- Model of Go `time.Time` as produced by `time.Unix(sec, 0)`: only the
seconds part of the `ext` field matters here (nanoseconds are always 0 in
this codebase). -/
structure GoTime where
  ext : Int
deriving DecidableEq, Repr

/-- Go `time.Unix(sec, 0)`. -/
def timeUnix (sec : Int) : GoTime := ⟨wrap64 (sec + unixToInternal)⟩

/-- Go `Time.Unix()`. -/
def GoTime.unix (t : GoTime) : Int := wrap64 (t.ext - unixToInternal)

/-! ## Data model -/

/-- One row of the SQLite table `emails`
(`id INTEGER PRIMARY KEY, email TEXT UNIQUE, confirmed_at INTEGER,
opt_out INTEGER`), as created by `mdb.TryCreate`. -/
structure Row where
  id : Int
  email : String
  confirmed_at : Int
  opt_out : Bool
deriving DecidableEq, Repr

/-- Go struct `mdb.EmailEntry`: `ConfirmedAt` is a `*time.Time`, hence an
`Option GoTime` (`none` models a nil pointer). -/
structure EmailEntry where
  id : Int
  email : String
  confirmedAt : Option GoTime
  optOut : Bool
deriving DecidableEq, Repr

/-- Wire struct `proto.EmailEntry`: `confirmed_at` travels as an `int64`
of epoch seconds. -/
structure PbEmailEntry where
  id : Int
  email : String
  confirmedAt : Int
  optOut : Bool
deriving DecidableEq, Repr

/-- Store-level errors the claims distinguish; `duplicateEmail` is the
SQLite UNIQUE-constraint failure raised by `INSERT` when the email is
already present. -/
inductive DbErr where
  | duplicateEmail
deriving DecidableEq, Repr

/-- Outcome of a Go store call: a value, an error returned to the caller,
or a runtime panic (nil-pointer dereference). -/
inductive GoResult (α : Type) where
  | ok (a : α)
  | err (e : DbErr)
  | panicked
deriving DecidableEq, Repr

/-! ## Record store (`mdb` package) -/

/-- Largest rowid in the table (0 when empty). -/
def maxId (db : List Row) : Int := db.foldr (fun r m => max r.id m) 0

/-- SQLite rowid assignment for a fresh `INSERT`: one more than the
largest existing rowid. -/
def nextId (db : List Row) : Int := maxId db + 1

/-- Whether a row with this email exists (the UNIQUE constraint check). -/
def hasEmail (db : List Row) (email : String) : Bool :=
  db.any fun r => r.email = email

/-- `mdb.CreateEmail`: `INSERT INTO emails (email, confirmed_at, opt_out)
VALUES (?, 0, false)`.  The UNIQUE constraint on `email` makes the insert
fail, leaving the table unchanged, when the email is already present. -/
def createEmail (db : List Row) (email : String) : GoResult (List Row) :=
  if hasEmail db email then .err .duplicateEmail
  else .ok (db ++ [⟨nextId db, email, 0, false⟩])

/-- The row scan of `mdb.GetEmail`:
`SELECT id, email, confirmed_at, opt_out FROM emails WHERE email = ?`,
returning the first matching row. -/
def getEmailRow (db : List Row) (email : String) : Option Row :=
  db.find? fun r => r.email = email

/-- `mdb.emailEntryFromRow`: scans a row and wraps the stored integer in
`time.Unix(confirmedAt, 0)`. -/
def emailEntryFromRow (r : Row) : EmailEntry :=
  ⟨r.id, r.email, some (timeUnix r.confirmed_at), r.opt_out⟩

/-- `mdb.GetEmail`: row lookup followed by `emailEntryFromRow`; absence is
a `nil` result, not an error. -/
def getEmail (db : List Row) (email : String) : Option EmailEntry :=
  (getEmailRow db email).map emailEntryFromRow

/-- `mdb.UpdateEmail`: first dereferences `emailEntry.ConfirmedAt.Unix()`
(a nil pointer panics), then runs
`UPDATE emails SET email=?, confirmed_at=?, opt_out=? WHERE ID=?`.
(A UNIQUE violation when re-pointing `email` at another row's address is
not modelled; no claim exercises it.) -/
def updateEmail (db : List Row) (entry : EmailEntry) (id : Int) :
    GoResult (List Row) :=
  match entry.confirmedAt with
  | none => .panicked
  | some gt =>
    .ok (db.map fun r =>
      if r.id = id then
        { r with email := entry.email, confirmed_at := gt.unix,
                 opt_out := entry.optOut }
      else r)

/-- `mdb.UpsertEmail`: first dereferences `emailEntry.ConfirmedAt.Unix()`
(a nil pointer panics), then runs
`INSERT INTO emails(email, confirmed_at, opt_out) VALUES(?,?,?)
ON CONFLICT(email) DO UPDATE SET confirmed_at=?, opt_out=?`:
if the email exists its row keeps `id` and `email` and gets the new
`confirmed_at`/`opt_out`; otherwise a fresh row is inserted with the
entry's values. -/
def upsertEmail (db : List Row) (entry : EmailEntry) : GoResult (List Row) :=
  match entry.confirmedAt with
  | none => .panicked
  | some gt =>
    if hasEmail db entry.email then
      .ok (db.map fun r =>
        if r.email = entry.email then
          { r with confirmed_at := gt.unix, opt_out := entry.optOut }
        else r)
    else
      .ok (db ++ [⟨nextId db, entry.email, gt.unix, entry.optOut⟩])

/-- `mdb.DeleteEmail`: `UPDATE emails SET opt_out=true WHERE id = ?` —
a soft delete; no row is removed. -/
def deleteEmail (db : List Row) (id : Int) : List Row :=
  db.map fun r => if r.id = id then { r with opt_out := true } else r

/-- `mdb.DeleteEmailByEmail`: `UPDATE emails SET opt_out=true WHERE
email = ?`. -/
def deleteEmailByEmail (db : List Row) (email : String) : List Row :=
  db.map fun r => if r.email = email then { r with opt_out := true } else r

/-- The rows with `opt_out=false`, in table (ascending-id) order: the
`WHERE opt_out=false ORDER BY id ASC` part of the batch query. -/
def activeRows (db : List Row) : List Row :=
  db.filter fun r => !r.opt_out

/-- `mdb.GetEmailBatch`:
`SELECT ... FROM emails WHERE opt_out=false ORDER BY id ASC
LIMIT ? OFFSET ?` with `LIMIT = count` and `OFFSET = (page-1)*count`,
followed by `emails := make([]*EmailEntry, 0, params.Count)` and the row
loop.  A negative OFFSET behaves as 0 in SQLite (`Int.toNat` clamps).
For a negative `count` the query itself would be unbounded (SQLite treats
a negative LIMIT as no limit), but `make` with a negative capacity panics
at runtime before any row is collected, so the function returns nothing
at all: modelled as `.panicked`. -/
def getEmailBatch (db : List Row) (page count : Int) :
    GoResult (List Row) :=
  if count < 0 then .panicked
  else
    .ok (((activeRows db).drop ((page - 1) * count).toNat).take count.toNat)

/-- Reachable table states: ids strictly increase in insertion order
(rowids are assigned `max+1` and never mutated) and emails are unique
(the UNIQUE constraint). -/
def WfDb (db : List Row) : Prop :=
  db.Pairwise (fun a b => a.id < b.id) ∧ (db.map Row.email).Nodup

/-! ## gRPC codec (`grpcapi` package) -/

/-- `grpcapi.pbEntryToMdb`: `t := time.Unix(pb.ConfirmedAt, 0)`. -/
def pbEntryToMdb (pb : PbEmailEntry) : EmailEntry :=
  ⟨pb.id, pb.email, some (timeUnix pb.confirmedAt), pb.optOut⟩

/-- `grpcapi.mdbEntryToPb`: reads `mdbEntry.ConfirmedAt.Unix()`; a nil
`ConfirmedAt` would panic, modelled as `none`. -/
def mdbEntryToPb (entry : EmailEntry) : Option PbEmailEntry :=
  match entry.confirmedAt with
  | none => none
  | some gt => some ⟨entry.id, entry.email, gt.unix, entry.optOut⟩

/-! ## JSON surface (`jsonapi` package) -/

/-- Decimal digit value, or `none`. -/
def digitVal (c : Char) : Option Nat :=
  if '0' ≤ c ∧ c ≤ '9' then some (c.toNat - '0'.toNat) else none

/-- Accumulating decimal parser over the remaining characters. -/
def parseDigitsAux : List Char → Nat → Option Nat
  | [], acc => some acc
  | c :: cs, acc =>
    match digitVal c with
    | none => none
    | some d => parseDigitsAux cs (acc * 10 + d)

/-- Parse a non-empty all-digit string. -/
def parseDigits (cs : List Char) : Option Nat :=
  match cs with
  | [] => none
  | _ => parseDigitsAux cs 0

/-- Smallest Go `int64`/`int`. -/
def int64Min : Int := -(2 ^ 63)

/-- Largest Go `int64`/`int`. -/
def int64Max : Int := 2 ^ 63 - 1

/-- `strconv.Atoi` (equally `strconv.ParseInt(s, 10, 64)`, which
`extractIdFromRequest` uses): an optional sign followed by at least one
digit, the whole string, rejecting values outside the `int64` range. -/
def atoi (s : String) : Option Int :=
  let signed : Option Int :=
    match s.toList with
    | '+' :: rest => (parseDigits rest).map fun n => (n : Int)
    | '-' :: rest => (parseDigits rest).map fun n => -(n : Int)
    | cs => (parseDigits cs).map fun n => (n : Int)
  match signed with
  | none => none
  | some n => if int64Min ≤ n ∧ n ≤ int64Max then some n else none

/-- Go struct `mdb.GetBatchEmailQueryParams`. -/
structure GetBatchEmailQueryParams where
  page : Int
  count : Int
deriving DecidableEq, Repr

/-- `jsonapi.getPagingParams`: `request.URL.Query().Get` yields `""` for
an absent parameter; `page` defaults to 0 and `count` to 5 when the
corresponding parameter is `""`; a present parameter is fed to
`strconv.Atoi` (page first), and an `Atoi` error aborts with `none`. -/
def getPagingParams (pageParam countParam : String) :
    Option GetBatchEmailQueryParams :=
  match (if pageParam = "" then some 0 else atoi pageParam) with
  | none => none
  | some page =>
    match (if countParam = "" then some 5 else atoi countParam) with
    | none => none
    | some count => some ⟨page, count⟩

/-- Observable outcome of the JSON batch handler: the HTTP status written,
whether `mdb.GetEmailBatch` was ever invoked, and whether the handler
goroutine panicked. -/
structure BatchOutcome where
  status : Nat
  listQueryCalled : Bool
  panicked : Bool
deriving DecidableEq, Repr

/-- `jsonapi.GetBatchEmail`: on a paging-parameter error it writes the
400 error response, but the missing `return` lets control fall through to
`returnJson`, whose closure dereferences the nil `params` pointer and
panics before `mdb.GetEmailBatch` is reached.  With well-formed
parameters the batch query is invoked: normally a 200 response is
written; if the query panics (negative count capacity), the panic escapes
with no status written. -/
def jsonGetBatchEmail (pageParam countParam : String) (db : List Row) :
    BatchOutcome :=
  match getPagingParams pageParam countParam with
  | none => ⟨400, false, true⟩
  | some p =>
    match getEmailBatch db p.page p.count with
    | .ok _ => ⟨200, true, false⟩
    | _ => ⟨0, true, true⟩

/-- Go `json.Marshal` of a string value: the quoted text (escaping is
irrelevant to the strings that occur here). -/
def marshalString (s : String) : String := "\"" ++ s ++ "\""

/-- An HTTP status plus the body written. -/
structure HttpResponse where
  status : Nat
  body : String
deriving DecidableEq, Repr

/-- The success path of `jsonapi.returnJson` (second variant): if the
marshalled payload is empty it writes 204 No Content and no body,
otherwise it writes the payload with the default 200 status. -/
def returnJsonOf (dataJson : String) : HttpResponse :=
  if dataJson.length = 0 then ⟨204, ""⟩ else ⟨200, dataJson⟩

/-- `jsonapi.DeleteEmail` (mux variant): parses `{id}` from the path
(failure → 400), soft-deletes by id, and hands the Go value `""` to
`returnJson` without re-fetching the record.  Returns the response
written and the resulting table. -/
def jsonDeleteEmail (idParam : String) (db : List Row) :
    HttpResponse × List Row :=
  match atoi idParam with
  | none => (⟨400, "Err"⟩, db)
  | some id =>
    let db2 := deleteEmail db id
    (returnJsonOf (marshalString ""), db2)

/-- A request body as seen by `jsonapi.fromJson`: either unparseable
(`json.Unmarshal`'s error is ignored, leaving the zero-valued
`mdb.EmailEntry`) or a well-formed entry whose `ConfirmedAt` field may
still be absent (nil). -/
inductive JsonBody where
  | malformed
  | entry (id : Int) (email : String) (confirmedAt : Option Int)
      (optOut : Bool)
deriving DecidableEq, Repr

/-- The zero value of `mdb.EmailEntry`: note the nil `ConfirmedAt`. -/
def zeroEntry : EmailEntry := ⟨0, "", none, false⟩

/-- `jsonapi.fromJson` on a request body: decode errors are swallowed and
leave the zero value. -/
def fromJson : JsonBody → EmailEntry
  | .malformed => zeroEntry
  | .entry i e c o => ⟨i, e, c.map timeUnix, o⟩

/-- Observable outcome of a JSON mutation handler: the status written
(0 when the goroutine panicked before writing one) and the panic flag. -/
structure MutationOutcome where
  status : Nat
  panicked : Bool
deriving DecidableEq, Repr

/-- `jsonapi.UpdateEmail` (mux variant): parses `{id}` (failure → 400),
decodes the body, and calls `mdb.UpdateEmail(db, *entry, id)` — which
dereferences `entry.ConfirmedAt` with no nil check anywhere between the
decode and the dereference. -/
def jsonUpdateEmail (idParam : String) (body : JsonBody) (db : List Row) :
    MutationOutcome × List Row :=
  match atoi idParam with
  | none => (⟨400, false⟩, db)
  | some id =>
    match updateEmail db (fromJson body) id with
    | .panicked => (⟨0, true⟩, db)
    | .err _ => (⟨400, false⟩, db)
    | .ok db2 => (⟨200, false⟩, db2)

/-- `jsonapi.CreateEmail`: decodes the body and calls
`mdb.CreateEmail(db, entry.Email)`; a store error is returned to the
client as HTTP 400 and leaves the table untouched. -/
def jsonCreateEmail (body : JsonBody) (db : List Row) :
    MutationOutcome × List Row :=
  match createEmail db (fromJson body).email with
  | .panicked => (⟨0, true⟩, db)
  | .err _ => (⟨400, false⟩, db)
  | .ok db2 => (⟨200, false⟩, db2)

/-! ## Concrete instances used by counterexamples and failing inputs -/

/-- A one-record table: the active record id 1, `"a@x.com"`. -/
def dbC4 : List Row := [⟨1, "a@x.com", 0, false⟩]

/-- Same one-record table, used as the state for the JSON delete
failing input. -/
def dbC8 : List Row := [⟨1, "a@x.com", 0, false⟩]

/-- An entry for a fresh email carrying non-default
`confirmed_at`/`opt_out` values. -/
def entryC5 : EmailEntry := ⟨0, "a@x.com", some (timeUnix 100), true⟩

/-! ## Helper lemmas -/

/-- The `time.Unix(sec, 0).Unix()` round-trip is exact on the whole
signed 64-bit range. -/
theorem unix_timeUnix (sec : Int) (h1 : int64Min ≤ sec)
    (h2 : sec ≤ int64Max) : (timeUnix sec).unix = sec := by
  simp only [int64Min] at h1
  simp only [int64Max] at h2
  unfold timeUnix GoTime.unix wrap64 unixToInternal
  dsimp only
  omega

/-- A fresh email is found, as the appended row, after an insert. -/
theorem getEmail_append_fresh (db : List Row) (e : String) (row : Row)
    (h : hasEmail db e = false) (hrow : row.email = e) :
    getEmail (db ++ [row]) e = some (emailEntryFromRow row) := by
  have hall : ∀ x ∈ db, ¬(x.email = e) := by
    simpa [hasEmail, List.any_eq_false] using h
  have hnone : db.find? (fun r => r.email = e) = none := by
    rw [List.find?_eq_none]
    intro x hx
    simpa using hall x hx
  unfold getEmail getEmailRow
  rw [List.find?_append, hnone]
  simp [hrow]

/-- With unique emails, `find?` by a member's email returns that member. -/
theorem find?_email_of_mem (db : List Row) (r : Row)
    (hnd : (db.map Row.email).Nodup) (hr : r ∈ db) :
    db.find? (fun x => x.email = r.email) = some r := by
  induction db with
  | nil => cases hr
  | cons a l ih =>
    rw [List.map_cons, List.nodup_cons] at hnd
    rcases List.mem_cons.mp hr with h | h
    · subst h
      simp
    · have hne : ¬(a.email = r.email) := by
        intro heq
        exact hnd.1 (heq ▸ List.mem_map_of_mem Row.email h)
      rw [List.find?_cons_of_neg _ (by simpa using hne)]
      exact ih hnd.2 h

/-! ## Claim theorems -/

/-- C1: for every email `e` not already present in the store,
`CreateEmail` succeeds, and a subsequent `GetEmail e` returns a record
whose `confirmed_at` is epoch zero and whose `opt_out` is false. -/
theorem c1_create_then_get (db : List Row) (e : String)
    (h : hasEmail db e = false) :
    ∃ db2, createEmail db e = .ok db2 ∧
      ∃ en, getEmail db2 e = some en ∧
        en.confirmedAt.map GoTime.unix = some 0 ∧ en.optOut = false := by
  refine ⟨db ++ [⟨nextId db, e, 0, false⟩], by simp [createEmail, h], ?_⟩
  refine ⟨emailEntryFromRow ⟨nextId db, e, 0, false⟩,
    getEmail_append_fresh db e _ h rfl, ?_, rfl⟩
  simp [emailEntryFromRow]
  decide

/-- C1 witness: creating `"a@x.com"` in the empty store. -/
theorem c1_create_then_get_witness :
    hasEmail [] "a@x.com" = false ∧
    ∃ db2, createEmail [] "a@x.com" = .ok db2 ∧
      ∃ en, getEmail db2 "a@x.com" = some en ∧
        en.confirmedAt.map GoTime.unix = some 0 ∧ en.optOut = false :=
  ⟨by decide, c1_create_then_get [] "a@x.com" (by decide)⟩

/-- C2: after a successful `CreateEmail`, creating the same email again
fails with the duplicate-email error, the JSON surface reports it as
HTTP 400, the table is left unchanged, and the stored record is still
exactly what the first creation produced. -/
theorem c2_duplicate_create (db db2 : List Row) (e : String)
    (h : createEmail db e = .ok db2) :
    createEmail db2 e = .err .duplicateEmail ∧
    (jsonCreateEmail (.entry 0 e none false) db2).1.status = 400 ∧
    (jsonCreateEmail (.entry 0 e none false) db2).2 = db2 ∧
    getEmail db2 e = some (emailEntryFromRow ⟨nextId db, e, 0, false⟩) := by
  unfold createEmail at h
  by_cases hc : hasEmail db e
  · simp [hc] at h
  · rw [if_neg hc] at h
    have hdb2 : db2 = db ++ [⟨nextId db, e, 0, false⟩] := by
      cases h
      rfl
    subst hdb2
    have hmem : hasEmail (db ++ [⟨nextId db, e, 0, false⟩]) e = true := by
      simp [hasEmail]
    refine ⟨by simp [createEmail, hmem], ?_, ?_, ?_⟩
    · simp [jsonCreateEmail, fromJson, createEmail, hmem]
    · simp [jsonCreateEmail, fromJson, createEmail, hmem]
    · exact getEmail_append_fresh db e _ (by simpa using hc) rfl

/-- C2 witness: creating `"a@x.com"` twice starting from the empty
store. -/
theorem c2_duplicate_create_witness :
    createEmail [] "a@x.com" = .ok [⟨1, "a@x.com", 0, false⟩] ∧
    createEmail [⟨1, "a@x.com", 0, false⟩] "a@x.com" =
      .err .duplicateEmail :=
  ⟨by decide,
   (c2_duplicate_create [] [⟨1, "a@x.com", 0, false⟩] "a@x.com"
      (by decide)).1⟩

/-- C6: every signed 64-bit epoch-seconds integer round-trips exactly
through the codec: `pbEntryToMdb` (wire → internal `time.Time`) followed
by `mdbEntryToPb` (internal → wire) returns the original entry, with no
loss on `confirmed_at`. -/
theorem c6_confirmedAt_roundtrip (pb : PbEmailEntry)
    (h1 : int64Min ≤ pb.confirmedAt) (h2 : pb.confirmedAt ≤ int64Max) :
    mdbEntryToPb (pbEntryToMdb pb) = some pb := by
  cases pb with
  | mk i e c o =>
    simp only [pbEntryToMdb, mdbEntryToPb]
    simp_all only []
    rw [unix_timeUnix c h1 h2]

/-- C6 witness: a concrete epoch timestamp round-trips. -/
theorem c6_confirmedAt_roundtrip_witness :
    mdbEntryToPb (pbEntryToMdb ⟨7, "a@x.com", 1700000000, true⟩) =
      some ⟨7, "a@x.com", 1700000000, true⟩ :=
  c6_confirmedAt_roundtrip ⟨7, "a@x.com", 1700000000, true⟩
    (by decide) (by decide)

/-- C3: after soft-deleting a record by id, `GetEmail` on its email still
returns the record, now with `opt_out=true`; whatever list `ListPage(1,
N)` returns, for every N, never includes it (for negative N nothing is
returned at all); and no row is physically removed. -/
theorem c3_softDelete_semantics (db : List Row) (r : Row)
    (hnd : (db.map Row.email).Nodup) (hr : r ∈ db) :
    getEmail (deleteEmail db r.id) r.email =
      some (emailEntryFromRow { r with opt_out := true }) ∧
    (∀ count : Int, ∀ res : List Row,
      getEmailBatch (deleteEmail db r.id) 1 count = .ok res →
      ∀ x ∈ res, x.id ≠ r.id) ∧
    (deleteEmail db r.id).length = db.length := by
  refine ⟨?_, ?_, by simp [deleteEmail]⟩
  · unfold getEmail getEmailRow deleteEmail
    rw [List.find?_map]
    have hp : ((fun x : Row => decide (x.email = r.email)) ∘
        (fun x : Row => if x.id = r.id then { x with opt_out := true }
          else x)) = fun x : Row => decide (x.email = r.email) := by
      funext x
      by_cases hx : x.id = r.id <;> simp [hx]
    rw [hp, find?_email_of_mem db r hnd hr]
    simp
  · intro count res hres x hx
    have hx1 : x ∈ activeRows (deleteEmail db r.id) := by
      unfold getEmailBatch at hres
      by_cases hc : count < 0
      · rw [if_pos hc] at hres
        exact GoResult.noConfusion hres
      · rw [if_neg hc] at hres
        injection hres with h2
        subst h2
        exact List.mem_of_mem_drop (List.mem_of_mem_take hx)
    have hx2 := List.mem_filter.mp hx1
    obtain ⟨y, hy, hxy⟩ := List.mem_map.mp hx2.1
    by_cases hid : y.id = r.id
    · rw [if_pos hid] at hxy
      have hopt : x.opt_out = true := by rw [← hxy]
      rw [hopt] at hx2
      simp at hx2
    · rw [if_neg hid] at hxy
      subst hxy
      exact hid

/-- C3 witness: soft-deleting the single record of a one-row table. -/
theorem c3_softDelete_semantics_witness :
    (([⟨1, "a@x.com", 0, false⟩] : List Row).map Row.email).Nodup ∧
    (getEmail (deleteEmail [⟨1, "a@x.com", 0, false⟩] 1) "a@x.com" =
      some (emailEntryFromRow ⟨1, "a@x.com", 0, true⟩) ∧
    (∀ count : Int, ∀ res : List Row,
      getEmailBatch (deleteEmail [⟨1, "a@x.com", 0, false⟩] 1)
        1 count = .ok res →
      ∀ x ∈ res, x.id ≠ 1) ∧
    (deleteEmail [⟨1, "a@x.com", 0, false⟩] 1).length =
      ([⟨1, "a@x.com", 0, false⟩] : List Row).length) :=
  ⟨by decide,
   c3_softDelete_semantics [⟨1, "a@x.com", 0, false⟩]
     ⟨1, "a@x.com", 0, false⟩ (by decide) (by decide)⟩

/-- C10: soft delete by id and by email modify only the `opt_out` field
of matching rows: every row keeps its position, id, email and
confirmed_at; non-matching rows are entirely unchanged; matching rows
end with `opt_out=true`; and both operations preserve the row count. -/
theorem c10_softDelete_frame (db : List Row) (id : Int) (email : String)
    (i : Nat) (r : Row) (h : db[i]? = some r) :
    (deleteEmail db id).length = db.length ∧
    (deleteEmailByEmail db email).length = db.length ∧
    (∃ r1, (deleteEmail db id)[i]? = some r1 ∧
      r1.id = r.id ∧ r1.email = r.email ∧
      r1.confirmed_at = r.confirmed_at ∧
      (r.id ≠ id → r1 = r) ∧ (r.id = id → r1.opt_out = true)) ∧
    (∃ r2, (deleteEmailByEmail db email)[i]? = some r2 ∧
      r2.id = r.id ∧ r2.email = r.email ∧
      r2.confirmed_at = r.confirmed_at ∧
      (r.email ≠ email → r2 = r) ∧
      (r.email = email → r2.opt_out = true)) := by
  refine ⟨by simp [deleteEmail], by simp [deleteEmailByEmail], ?_, ?_⟩
  · refine ⟨if r.id = id then { r with opt_out := true } else r,
      ?_, ?_, ?_, ?_, ?_, ?_⟩
    · unfold deleteEmail
      rw [List.getElem?_map, h]
      rfl
    all_goals by_cases hc : r.id = id <;> simp [hc]
  · refine ⟨if r.email = email then { r with opt_out := true } else r,
      ?_, ?_, ?_, ?_, ?_, ?_⟩
    · unfold deleteEmailByEmail
      rw [List.getElem?_map, h]
      rfl
    all_goals by_cases hc : r.email = email <;> simp [hc]

/-- C10 witness: frame property at the single row of a one-row table. -/
theorem c10_softDelete_frame_witness :
    (([⟨1, "a@x.com", 0, false⟩] : List Row))[0]? =
      some ⟨1, "a@x.com", 0, false⟩ ∧
    (deleteEmail [⟨1, "a@x.com", 0, false⟩] 1).length =
      ([⟨1, "a@x.com", 0, false⟩] : List Row).length ∧
    (∃ r1, (deleteEmail [⟨1, "a@x.com", 0, false⟩] 1)[0]? = some r1 ∧
      r1.id = 1 ∧ r1.email = "a@x.com" ∧ r1.confirmed_at = 0 ∧
      ((1 : Int) = 1 → r1.opt_out = true)) :=
  ⟨by decide,
   (c10_softDelete_frame [⟨1, "a@x.com", 0, false⟩] 1 "zzz" 0
      ⟨1, "a@x.com", 0, false⟩ (by decide)).1,
   (c10_softDelete_frame [⟨1, "a@x.com", 0, false⟩] 1 "zzz" 0
      ⟨1, "a@x.com", 0, false⟩ (by decide)).2.2.1.elim
     fun r1 hr1 => ⟨r1, hr1.1, hr1.2.1, hr1.2.2.1, hr1.2.2.2.1,
       fun _ => hr1.2.2.2.2.2 rfl⟩⟩

/-- C4 counterexample: the claim quantifies over every count, but at
`count = -1` the code panics at `make([]*EmailEntry, 0, -1)` (negative
capacity) before collecting any row, so `ListPage(1, -1)` returns no
record list at all — in particular it does not return at most `count`
records. -/
theorem c4_counterexample :
    getEmailBatch dbC4 1 (-1) = .panicked ∧
    ¬ ∃ res : List Row, getEmailBatch dbC4 1 (-1) = .ok res := by
  refine ⟨by decide, ?_⟩
  rintro ⟨res, h⟩
  rw [show getEmailBatch dbC4 1 (-1) = .panicked by decide] at h
  exact GoResult.noConfusion h

/-- C4 (amended): for every well-formed store, every page and every
count ≥ 0, `ListPage(page, count)` returns a list of at most `count`
records, all with `opt_out=false`, ordered by strictly increasing id,
and that list is the contiguous slice of the active records (ascending
id) starting after the first `(page-1)*count` of them (a negative
offset, arising from page ≤ 0, behaving as zero skipped).  For a
negative count the function panics at `make` and returns nothing. -/
theorem c4_batch_spec (db : List Row) (page count : Int)
    (hw : db.Pairwise fun a b => a.id < b.id) (hc : 0 ≤ count) :
    ∃ res : List Row, getEmailBatch db page count = .ok res ∧
      ((res.length : Int) ≤ count) ∧
      (∀ x ∈ res, x.opt_out = false) ∧
      (res.Pairwise fun a b => a.id < b.id) ∧
      (∀ i : Nat, i < res.length →
        res[i]? = (activeRows db)[((page - 1) * count).toNat + i]?) := by
  have hnneg : ¬ count < 0 := by omega
  refine ⟨((activeRows db).drop ((page - 1) * count).toNat).take
    count.toNat, ?_, ?_, ?_, ?_, ?_⟩
  · unfold getEmailBatch
    rw [if_neg hnneg]
  · have hlen : (((activeRows db).drop
        ((page - 1) * count).toNat).take count.toNat).length ≤
        count.toNat := by
      simp [List.length_take]
    calc ((((activeRows db).drop ((page - 1) * count).toNat).take
            count.toNat).length : Int)
        ≤ (count.toNat : Int) := by exact_mod_cast hlen
      _ = count := Int.toNat_of_nonneg hc
  · intro x hx
    have hx1 : x ∈ activeRows db :=
      List.mem_of_mem_drop (List.mem_of_mem_take hx)
    have hx2 := List.mem_filter.mp hx1
    simpa using hx2.2
  · have hact : (activeRows db).Pairwise fun a b => a.id < b.id :=
      List.Pairwise.filter _ hw
    exact List.Pairwise.sublist
      ((List.take_sublist _ _).trans (List.drop_sublist _ _)) hact
  · intro i hi
    have hcnt : i < count.toNat := by
      rw [List.length_take] at hi
      omega
    rw [List.getElem?_take_of_lt hcnt, List.getElem?_drop]

/-- C4 witness: the amended statement at a concrete two-row store. -/
theorem c4_batch_spec_witness :
    (([⟨1, "a@x.com", 0, false⟩, ⟨2, "b@x.com", 0, true⟩] :
        List Row).Pairwise fun a b => a.id < b.id) ∧
    ∃ res : List Row,
      getEmailBatch [⟨1, "a@x.com", 0, false⟩, ⟨2, "b@x.com", 0, true⟩]
        1 5 = .ok res ∧
      ((res.length : Int) ≤ 5) ∧
      (∀ x ∈ res, x.opt_out = false) ∧
      (res.Pairwise fun a b => a.id < b.id) ∧
      (∀ i : Nat, i < res.length →
        res[i]? = (activeRows [⟨1, "a@x.com", 0, false⟩,
          ⟨2, "b@x.com", 0, true⟩])[((1 - 1) * 5 : Int).toNat + i]?) :=
  ⟨by decide,
   c4_batch_spec [⟨1, "a@x.com", 0, false⟩, ⟨2, "b@x.com", 0, true⟩]
     1 5 (by decide) (by decide)⟩

/-- C5 counterexample: upserting a fresh entry carrying
`confirmed_at=100, opt_out=true` inserts those values, whereas
`Create` of the same email inserts `confirmed_at=0, opt_out=false`:
the resulting states differ. -/
theorem c5_counterexample :
    upsertEmail [] entryC5 = .ok [⟨1, "a@x.com", 100, true⟩] ∧
    createEmail [] "a@x.com" = .ok [⟨1, "a@x.com", 0, false⟩] ∧
    ([⟨1, "a@x.com", 100, true⟩] : List Row) ≠
      [⟨1, "a@x.com", 0, false⟩] := by decide

/-- C5 (amended): upsert of an entry with a fresh email inserts a new
row with the next id and the entry's own `confirmed_at` and `opt_out`
(coinciding with `Create` exactly when those are 0 and false); upsert of
an entry whose email exists rewrites `confirmed_at`/`opt_out` of that
row in place, preserving every row's id and email. -/
theorem c5_upsert_spec (db : List Row) (entry : EmailEntry) (gt : GoTime)
    (hct : entry.confirmedAt = some gt) :
    (hasEmail db entry.email = false →
      upsertEmail db entry =
        .ok (db ++ [⟨nextId db, entry.email, gt.unix, entry.optOut⟩]) ∧
      (gt.unix = 0 → entry.optOut = false →
        upsertEmail db entry = createEmail db entry.email)) ∧
    (hasEmail db entry.email = true →
      ∃ db2, upsertEmail db entry = .ok db2 ∧
        db2.map Row.id = db.map Row.id ∧
        db2.map Row.email = db.map Row.email ∧
        (∀ j : Nat, ∀ r0 : Row, db[j]? = some r0 →
          ∃ r1, db2[j]? = some r1 ∧
            (r0.email = entry.email →
              r1.confirmed_at = gt.unix ∧ r1.opt_out = entry.optOut) ∧
            (r0.email ≠ entry.email → r1 = r0))) := by
  unfold upsertEmail
  rw [hct]
  dsimp only
  constructor
  · intro hfresh
    rw [if_neg (by simp [hfresh])]
    refine ⟨rfl, fun hz ho => ?_⟩
    unfold createEmail
    rw [if_neg (by simp [hfresh]), hz, ho]
  · intro hmem
    rw [if_pos (by simp [hmem])]
    refine ⟨_, rfl, ?_, ?_, ?_⟩
    · rw [List.map_map]
      apply List.map_congr_left
      intro x _
      by_cases he : x.email = entry.email <;> simp [he]
    · rw [List.map_map]
      apply List.map_congr_left
      intro x _
      by_cases he : x.email = entry.email <;> simp [he]
    · intro j r0 hj
      refine ⟨if r0.email = entry.email then
          { r0 with confirmed_at := gt.unix, opt_out := entry.optOut }
        else r0, ?_, ?_, ?_⟩
      · rw [List.getElem?_map, hj]
        rfl
      · intro he
        rw [if_pos he]
        exact ⟨rfl, rfl⟩
      · intro he
        rw [if_neg he]

/-- C5 witness: the fresh-email branch on the empty store; the inserted
row carries the entry's values and coincides with `Create` for the
default values. -/
theorem c5_upsert_spec_witness :
    upsertEmail [] ⟨0, "a@x.com", some (timeUnix 0), false⟩ =
      .ok [⟨1, "a@x.com", (timeUnix 0).unix, false⟩] ∧
    upsertEmail [] ⟨0, "a@x.com", some (timeUnix 0), false⟩ =
      createEmail [] "a@x.com" :=
  have h := (c5_upsert_spec [] ⟨0, "a@x.com", some (timeUnix 0), false⟩
    (timeUnix 0) rfl).1 (by decide)
  ⟨h.1, h.2 (by decide) rfl⟩

/-- C7: for the JSON batch listing, an absent `page` defaults to 0 and an
absent `count` defaults to 5; whenever `page` or `count` is present but
not numeric, parameter parsing fails, the handler writes an HTTP 400
client error, and `mdb.GetEmailBatch` is never invoked.  (The missing
`return` after `returnErr` then makes the handler dereference the nil
params pointer and panic, but only after the 400 response and still
without reaching the list query.) -/
theorem c7_paging_params (db : List Row) (pS cS : String)
    (hbad : (pS ≠ "" ∧ atoi pS = none) ∨ (cS ≠ "" ∧ atoi cS = none)) :
    getPagingParams "" "" = some ⟨0, 5⟩ ∧
    (∀ s n, atoi s = some n → getPagingParams "" s = some ⟨0, n⟩ ∧
      getPagingParams s "" = some ⟨n, 5⟩) ∧
    getPagingParams pS cS = none ∧
    (jsonGetBatchEmail pS cS db).status = 400 ∧
    (jsonGetBatchEmail pS cS db).listQueryCalled = false := by
  have hemptyAtoi : atoi "" = none := by decide
  have hnone : getPagingParams pS cS = none := by
    unfold getPagingParams
    rcases hbad with ⟨hne, hat⟩ | ⟨hne, hat⟩
    · rw [if_neg hne, hat]
    · by_cases hpe : pS = ""
      · rw [if_pos hpe]
        rw [if_neg hne, hat]
      · rw [if_neg hpe]
        cases hap : atoi pS with
        | none => rfl
        | some n =>
          rw [if_neg hne, hat]
  refine ⟨by decide, ?_, hnone, ?_, ?_⟩
  · intro s n h
    have hs : s ≠ "" := by
      intro he
      rw [he, hemptyAtoi] at h
      cases h
    constructor
    · unfold getPagingParams
      rw [if_pos rfl, if_neg hs, h]
    · unfold getPagingParams
      rw [if_neg hs, h, if_pos rfl]
  · unfold jsonGetBatchEmail
    rw [hnone]
  · unfold jsonGetBatchEmail
    rw [hnone]

/-- C7 witness: a non-numeric `page` with an absent `count`. -/
theorem c7_paging_params_witness :
    (("abc" ≠ "" ∧ atoi "abc" = none) ∨
      ("" ≠ "" ∧ atoi "" = none)) ∧
    (getPagingParams "" "" = some ⟨0, 5⟩ ∧
      (∀ s n, atoi s = some n → getPagingParams "" s = some ⟨0, n⟩ ∧
        getPagingParams s "" = some ⟨n, 5⟩) ∧
      getPagingParams "abc" "" = none ∧
      (jsonGetBatchEmail "abc" "" []).status = 400 ∧
      (jsonGetBatchEmail "abc" "" []).listQueryCalled = false) :=
  ⟨Or.inl ⟨by decide, by decide⟩,
   c7_paging_params [] "abc" "" (Or.inl ⟨by decide, by decide⟩)⟩

/-- C8 (code bug): the JSON delete handler hands the Go value `""` to
`returnJson`, but `json.Marshal("")` is the two-byte text `""`, never an
empty payload, so the dead 204 branch is skipped and the response is
HTTP 200 with body `""` — not 204 No Content as specified.  The soft
delete itself does happen. -/
theorem c8_delete_not_204 :
    (jsonDeleteEmail "1" dbC8).1.status = 200 ∧
    (jsonDeleteEmail "1" dbC8).1.body = "\"\"" ∧
    (jsonDeleteEmail "1" dbC8).1.status ≠ 204 ∧
    (jsonDeleteEmail "1" dbC8).2 = [⟨1, "a@x.com", 0, true⟩] := by
  decide

/-- C9: `mdb.UpdateEmail` and `mdb.UpsertEmail` dereference
`entry.ConfirmedAt` before touching the store, with no nil check; the
JSON codec decodes a malformed body to the zero-valued entry whose
`ConfirmedAt` is nil; and the JSON update handler feeds that entry
straight to `UpdateEmail`, so the handler panics on such a body. -/
theorem c9_nil_confirmedAt_panics (db : List Row) (entry : EmailEntry)
    (id : Int) (h : entry.confirmedAt = none) :
    updateEmail db entry id = .panicked ∧
    upsertEmail db entry = .panicked ∧
    (fromJson .malformed).confirmedAt = none ∧
    (jsonUpdateEmail "1" .malformed db).1.panicked = true := by
  have ha : atoi "1" = some 1 := by decide
  have hz : updateEmail db zeroEntry 1 = .panicked := by
    unfold updateEmail zeroEntry
    rfl
  refine ⟨?_, ?_, rfl, ?_⟩
  · unfold updateEmail
    rw [h]
  · unfold upsertEmail
    rw [h]
  · unfold jsonUpdateEmail fromJson
    rw [ha]
    dsimp only
    rw [hz]

/-- C9 witness: the zero-valued entry against the empty store. -/
theorem c9_nil_confirmedAt_panics_witness :
    zeroEntry.confirmedAt = none ∧
    (updateEmail [] zeroEntry 0 = .panicked ∧
      upsertEmail [] zeroEntry = .panicked ∧
      (fromJson .malformed).confirmedAt = none ∧
      (jsonUpdateEmail "1" .malformed []).1.panicked = true) :=
  ⟨rfl, c9_nil_confirmedAt_panics [] zeroEntry 0 rfl⟩

end MailingList
